import Mathlib

/-!
# Verification of the `lullaby` lifecycle coordinator

Shallow embedding of `lullaby.go` (package `lullaby`): a coordinator
(`Group`) that starts a set of registered services concurrently, shares one
cancellable context among them, stops them on the first start failure, on an
OS signal, or on a programmatic `Stop()` call, and joins everything in
`Wait()`.

Services are identified by natural numbers; a service's Go `error` results
are modelled as `Option Nat` (`none` = nil error, `some e` = a non-nil
error with payload `e`).

Concurrency is modelled as an interleaving of atomic events at the
granularity of the code's own critical sections:
  * `taskBegin svc` — the start task's prologue
    (`lg.mu.Lock(); lg.startedServices = append(...); lg.mu.Unlock()`);
  * `taskFail svc e` — `srvc.Start(lg.ctx)` returned the non-nil error `e`,
    so the task runs `lg.Stop()`;
  * `callStop` — `lg.Stop()` invoked from outside a start task
    (programmatic caller or the signal handler).
A run is a fold of such events over the `Group` state; quantifying over
event lists quantifies over the schedules the code admits.  The trace of a
run is the list of stop fan-outs that executed; each fan-out is recorded as
the list of service ids whose `Stop` method it invoked, in launch order.
-/

namespace Lullaby

/-- State of a `Group` (struct `Group` in `lullaby.go`).  `wg`, `mu` and the
two context values are concurrency primitives; the state they contribute is
captured by `stopOnceDone` (whether `stopOnce.Do` has consumed its latch)
and `ctxCancelled` (whether `lg.cancel()` has been called on the shared
context). -/
structure Group where
  services : List Nat
  startedServices : List Nat
  stopOnceDone : Bool
  ctxCancelled : Bool
  timeout : Nat
deriving DecidableEq, Repr

/-- `New(timeout)`: fresh context (not cancelled), fresh `sync.Once`,
empty `services` and `startedServices`. -/
def New (timeout : Nat) : Group :=
  { services := []
    startedServices := []
    stopOnceDone := false
    ctxCancelled := false
    timeout := timeout }

/-- `Add(service)`: `lg.services = append(lg.services, service)`. -/
def Group.Add (g : Group) (service : Nat) : Group :=
  { g with services := g.services ++ [service] }

/-- `stopAll()`: snapshots `lg.startedServices` under the mutex and launches
one stop task per snapshotted service, then joins them.  The fan-out is
recorded in the trace as the snapshot itself (one trace entry = one fan-out
execution; its elements are the services whose `Stop` was invoked).
Timing of the join is modelled separately (`joinStopTasks`). -/
def Group.stopAll (g : Group) : Group × List (List Nat) :=
  (g, [g.startedServices])

/-- `Stop()`: `lg.stopOnce.Do(func() { lg.cancel(); lg.stopAll() })`.
`sync.Once` linearises concurrent callers, so K concurrent invocations
behave as K sequential ones: the first caller with the latch unconsumed
runs the body; every other call returns without work. -/
def Group.Stop (g : Group) : Group × List (List Nat) :=
  if g.stopOnceDone then (g, [])
  else
    let g' := { g with stopOnceDone := true, ctxCancelled := true }
    g'.stopAll

/-- One atomic event of a run (see the file header). -/
inductive Event where
  | taskBegin (svc : Nat)
  | taskFail (svc : Nat) (e : Nat)
  | callStop
deriving DecidableEq, Repr

/-- Effect of one event on the state.  `taskFail` mirrors
`if err := srvc.Start(lg.ctx); err != nil { lg.Stop() }`: the error value
`e` is inspected only for being non-nil and is otherwise discarded. -/
def Group.step (g : Group) : Event → Group × List (List Nat)
  | .taskBegin svc =>
      ({ g with startedServices := g.startedServices ++ [svc] }, [])
  | .taskFail _ _ => g.Stop
  | .callStop => g.Stop

/-- A run: fold the events over the state, concatenating the traces. -/
def Group.run (g : Group) : List Event → Group × List (List Nat)
  | [] => (g, [])
  | ev :: rest =>
      let s := g.step ev
      let s' := s.1.run rest
      (s'.1, s.2 ++ s'.2)

/-- Everything `Start()` does synchronously before `return nil`: which tasks
it handed to `lg.wg.Go`.  No service body runs inside `Start` itself. -/
structure LaunchResult where
  listenerLaunched : Bool
  startTasksLaunched : List Nat
  syncResult : Option Nat
deriving DecidableEq, Repr

/-- `Start()`: `lg.wg.Go(handleSignals)`, then one `lg.wg.Go` per registered
service in registry order (the loop is mirrored by the fold), then
`return nil`.  The launched task bodies execute later, as run events. -/
def Group.Start (g : Group) : Group × LaunchResult :=
  let launched := g.services.foldl (fun acc svc => acc ++ [svc]) []
  (g, { listenerLaunched := true
        startTasksLaunched := launched
        syncResult := none })

/-- `Wait()`: `lg.wg.Wait()` — joins the launched tasks and returns no
value.  Whether it returns at all is a liveness question, modelled by
`waitReturns` below. -/
def Group.Wait (_g : Group) : Unit := ()

/-- Number of times a run's fan-outs invoked `svc.Stop` over trace `tr`. -/
def stopCallCount (tr : List (List Nat)) (svc : Nat) : Nat :=
  (tr.map (List.count svc)).sum

/- ### Liveness model

`handleSignals` blocks in `select { case <-lg.ctx.Done(): return;
case <-sigChan: lg.Stop() }`, and a start task whose `Start` returned a
non-nil error calls `lg.Stop()`.  Every `lg.Stop()` call goes through
`stopOnce.Do`, and `sync.Once.Do` returns — for the caller that runs the
body and for every concurrent caller alike — only once the body has
completed; the body ends in `stopAll`, whose last statement is the
unbounded join `stopWg.Wait()`.  So any task on `lg.wg` that calls
`lg.Stop()` returns only if that join completes.  `fanoutCompletes` below
is whether it does, i.e. `(joinStopTasks ...).isSome` for the started
services' stop behaviours once the fan-out has been triggered.

Since the context is cancelled at most once and never un-cancelled,
evaluating the predicates at the run's final state is faithful for
termination of a completed run.  Where `select` has more than one ready
branch its choice is nondeterministic; these predicates read "some
schedule lets the task return", so their `false` cases are blocking in
every schedule — the claim theorems only use those. -/

/-- Observable behaviour of one service's `Start(ctx)` call. -/
inductive StartBeh where
  | completes (err : Option Nat)
  | runsUntilCancel
deriving DecidableEq, Repr

/-- Whether a start task returns: a nil-returning `Start` ends the task
body at once; a non-nil-returning one continues into `lg.Stop()`, which
returns only once the stop body — through to the fan-out's join — has
completed; `runsUntilCancel` blocks inside `Start` on the shared context
and returns only if it was cancelled (and then makes no `Stop` call). -/
def startTaskReturns (beh : StartBeh) (ctxCancelled fanoutCompletes : Bool) :
    Bool :=
  match beh with
  | .completes none => true
  | .completes (some _) => fanoutCompletes
  | .runsUntilCancel => ctxCancelled

/-- Whether the `handleSignals` task returns, from its `select`: the
`ctx.Done()` branch is a plain `return`; the `sigChan` branch calls
`lg.Stop()` and so returns only if the fan-out's join completes. -/
def handleSignalsReturns (ctxCancelled signalArrived fanoutCompletes :
    Bool) : Bool :=
  ctxCancelled || (signalArrived && fanoutCompletes)

/-- Whether `Wait()` returns: `lg.wg.Wait()` returns iff every task handed
to `lg.wg.Go` returns — every start task and the `handleSignals` task.
(The fan-out's stop tasks run on `stopWg`, not on `lg.wg`, but they reach
`lg.wg` through any of its tasks blocked in `lg.Stop()`.) -/
def waitReturns (behs : List StartBeh)
    (ctxCancelled signalArrived fanoutCompletes : Bool) : Bool :=
  behs.all (fun b => startTaskReturns b ctxCancelled fanoutCompletes) &&
    handleSignalsReturns ctxCancelled signalArrived fanoutCompletes

/- ### Timing model of the stop fan-out

Each stop task either returns after some finite time (`some t`; a
cooperative implementation returns once the deadline context fires) or
never returns (`none`; it ignores the deadline).  `stopWg.Wait()` joins the
tasks one after another: it returns when the last task has, and never if
one never does.  The deadline context created from `lg.timeout` is passed
*to* the tasks; it is not an input of the join itself. -/

/-- `stopWg.Wait()`: joins the launched stop tasks; returns at the time the
last one returns, and never returns (`none`) if some task never does.  The
join takes no deadline: `conc.WaitGroup.Wait` blocks unconditionally. -/
def joinStopTasks : List (Option Nat) → Option Nat
  | [] => some 0
  | t :: rest =>
      Option.bind (joinStopTasks rest) (fun b => Option.map (fun a => max a b) t)

/-- Completion time of `stopAll`'s join, given each started service's stop
behaviour (`stopBeh svc = some t`: `svc.Stop` returns after `t`;
`none`: it never returns). -/
def Group.stopAllJoin (g : Group) (stopBeh : Nat → Option Nat) :
    Option Nat :=
  joinStopTasks (g.startedServices.map stopBeh)

/-- Modelled from the spec (§4.3 step 4), for comparison with
`joinStopTasks`: "Wait for all stop tasks to finish or for the timeout to
elapse, whichever first; tasks that exceed the deadline are abandoned" — a
task contributes the earlier of its return time and the timeout, so the
join always completes, no later than the timeout. -/
def joinStopTasksSpec (timeout : Nat) : List (Option Nat) → Nat
  | [] => 0
  | t :: rest =>
      max (match t with
           | some a => min a timeout
           | none => timeout)
        (joinStopTasksSpec timeout rest)

/- ### Stop outcomes

The stop task body is `_ = srvc.Stop(stopCtx)`: the outcome of `Stop` is
computed and thrown away.  To state that it is thrown away we record it in
a diagnostic trace and show nothing else depends on it. -/

/-- `stopAll` with each service's stop outcome made observable: one
`(service, outcome)` pair per launched stop task.  The outcomes gate
nothing: the loop launches a task for every snapshotted service. -/
def Group.stopAllO (g : Group) (outcome : Nat → Option Nat) :
    Group × List (Nat × Option Nat) :=
  (g, g.startedServices.map (fun s => (s, outcome s)))

/-- `Stop()` with stop outcomes made observable (same guard as `Stop`). -/
def Group.StopO (g : Group) (outcome : Nat → Option Nat) :
    Group × List (Nat × Option Nat) :=
  if g.stopOnceDone then (g, [])
  else
    let g' := { g with stopOnceDone := true, ctxCancelled := true }
    g'.stopAllO outcome

/-- First non-nil error returned by a start task in a run, in schedule
order — the value the spec says is "recorded, first-failure-wins". -/
def firstStartFailure : List Event → Option Nat
  | [] => none
  | .taskFail _ e :: _ => some e
  | _ :: rest => firstStartFailure rest

/-- Replace every start-task error value by `0`, keeping which tasks
failed.  Runs are invariant under this: the code never reads the value. -/
def scrubErrors : List Event → List Event
  | [] => []
  | .taskFail svc _ :: rest => .taskFail svc 0 :: scrubErrors rest
  | ev :: rest => ev :: scrubErrors rest

/-- A cancellation scenario: register `regs` on a fresh group, let the start
tasks of `order` begin (in that schedule order), then one external
`Stop()`. -/
def stopScenario (t : Nat) (regs order : List Nat) : Group × List (List Nat) :=
  (regs.foldl Group.Add (New t)).run
    (order.map Event.taskBegin ++ [Event.callStop])

/-! ## Helper lemmas -/

/-- `Stop` leaves its latch consumed whether or not it ran the body. -/
theorem Group.stop_stopOnceDone (g : Group) : (g.Stop).1.stopOnceDone = true := by
  by_cases h : g.stopOnceDone <;> simp [Group.Stop, Group.stopAll, h]

/-- A `Stop` call finding the latch consumed does nothing. -/
theorem Group.stop_of_done (g : Group) (h : g.stopOnceDone = true) :
    g.Stop = (g, []) := by
  simp [Group.Stop, h]

/-- With the latch consumed, any number of further `Stop` calls does
nothing. -/
theorem Group.run_callStop_done (g : Group) (k : Nat)
    (h : g.stopOnceDone = true) :
    g.run (List.replicate k Event.callStop) = (g, []) := by
  induction k with
  | zero => simp [Group.run]
  | succ n ih =>
      simp only [List.replicate_succ, Group.run, Group.step,
        Group.stop_of_done g h]
      simp [ih]

/-- Running only start-task prologues appends the begun services to
`startedServices` in schedule order and touches nothing else. -/
theorem Group.run_taskBegins (g : Group) (order : List Nat) :
    g.run (order.map Event.taskBegin) =
      ({ g with startedServices := g.startedServices ++ order }, []) := by
  induction order generalizing g with
  | nil => simp [Group.run]
  | cons x xs ih =>
      simp [Group.run, Group.step, ih, List.append_assoc]

/-- Splitting a run at an event-list concatenation. -/
theorem Group.run_append (g : Group) (a b : List Event) :
    g.run (a ++ b) =
      (((g.run a).1.run b).1, (g.run a).2 ++ ((g.run a).1.run b).2) := by
  induction a generalizing g with
  | nil => simp [Group.run]
  | cons e rest ih =>
      simp [Group.run, ih, List.append_assoc]

/-- Registration only grows the registry; the rest of the state is not
touched by `Add`. -/
theorem foldl_Add_fields (g : Group) (regs : List Nat) :
    (regs.foldl Group.Add g).startedServices = g.startedServices ∧
    (regs.foldl Group.Add g).stopOnceDone = g.stopOnceDone ∧
    (regs.foldl Group.Add g).ctxCancelled = g.ctxCancelled ∧
    (regs.foldl Group.Add g).services = g.services ++ regs := by
  induction regs generalizing g with
  | nil => simp
  | cons x xs ih =>
      simpa [Group.Add, List.append_assoc] using ih (g.Add x)

/-- One event never un-cancels the shared context. -/
theorem Group.step_ctx_mono (g : Group) (ev : Event)
    (h : g.ctxCancelled = true) : (g.step ev).1.ctxCancelled = true := by
  cases ev with
  | taskBegin svc => simpa [Group.step] using h
  | taskFail svc e =>
      by_cases hd : g.stopOnceDone <;>
        simp [Group.step, Group.Stop, Group.stopAll, hd, h]
  | callStop =>
      by_cases hd : g.stopOnceDone <;>
        simp [Group.step, Group.Stop, Group.stopAll, hd, h]

/-- Whole runs never un-cancel the shared context ("once asserted, it
remains asserted"). -/
theorem Group.run_ctx_mono (g : Group) (evs : List Event)
    (h : g.ctxCancelled = true) : ((g.run evs).1).ctxCancelled = true := by
  induction evs generalizing g with
  | nil => simpa [Group.run] using h
  | cons ev rest ih =>
      simpa [Group.run] using ih (g.step ev).1 (g.step_ctx_mono ev h)

/-- One event never touches the registry. -/
theorem Group.step_services (g : Group) (ev : Event) :
    (g.step ev).1.services = g.services := by
  cases ev with
  | taskBegin svc => simp [Group.step]
  | taskFail svc e =>
      by_cases hd : g.stopOnceDone <;>
        simp [Group.step, Group.Stop, Group.stopAll, hd]
  | callStop =>
      by_cases hd : g.stopOnceDone <;>
        simp [Group.step, Group.Stop, Group.stopAll, hd]

/-- Whole runs never touch the registry. -/
theorem Group.run_services (g : Group) (evs : List Event) :
    ((g.run evs).1).services = g.services := by
  induction evs generalizing g with
  | nil => simp [Group.run]
  | cons ev rest ih =>
      simp [Group.run]
      exact (ih (g.step ev).1).trans (g.step_services ev)

/-- The accumulator-append fold in `Start` collects exactly the folded
list, in order. -/
theorem foldl_append_singleton (l acc : List Nat) :
    l.foldl (fun a x => a ++ [x]) acc = acc ++ l := by
  induction l generalizing acc with
  | nil => simp
  | cons x xs ih => simp [ih, List.append_assoc]

/-! ## Claim theorems -/

/-- C2: invoking `Stop()` K times (K ≥ 1) from a state whose stop latch is
unconsumed executes the stop sequence body — cancel the shared signal, then
fan out stop calls — exactly once (one fan-out in the trace, the whole run
equal to a single `Stop`), and every invocation after the first performs no
work (a further `Stop` on the resulting state returns the state unchanged
with an empty trace). -/
theorem stop_fanout_exactly_once (g : Group) (k : Nat)
    (hg : g.stopOnceDone = false) (hk : 1 ≤ k) :
    g.run (List.replicate k Event.callStop) = g.Stop ∧
    (g.Stop).2.length = 1 ∧
    (g.Stop).1.ctxCancelled = true ∧
    ((g.run (List.replicate k Event.callStop)).1).Stop
      = ((g.run (List.replicate k Event.callStop)).1, []) := by
  have hrun : g.run (List.replicate k Event.callStop) = g.Stop := by
    obtain ⟨j, rfl⟩ : ∃ j, k = j + 1 :=
      ⟨k - 1, (Nat.succ_pred_eq_of_pos hk).symm⟩
    have hdone : (g.Stop).1.stopOnceDone = true := g.stop_stopOnceDone
    simp only [List.replicate_succ, Group.run, Group.step]
    rw [Group.run_callStop_done _ j hdone]
    simp
  refine ⟨hrun, ?_, ?_, ?_⟩
  · simp [Group.Stop, Group.stopAll, hg]
  · simp [Group.Stop, Group.stopAll, hg]
  · rw [hrun]
    exact Group.stop_of_done _ (g.stop_stopOnceDone)

/-- Witness for C2 at a fresh group and K = 3. -/
theorem stop_fanout_exactly_once_witness :
    (New 5).stopOnceDone = false ∧ 1 ≤ 3 ∧
    (New 5).run (List.replicate 3 Event.callStop) = (New 5).Stop ∧
    ((New 5).Stop).2.length = 1 :=
  ⟨rfl, by decide,
    (stop_fanout_exactly_once (New 5) 3 rfl (by decide)).1,
    (stop_fanout_exactly_once (New 5) 3 rfl (by decide)).2.1⟩

/-- C6: `Start()` returns as soon as the listener task and one start task
per registered service (registry order) have been launched; no service body
runs inside it (the state is unchanged and the launched bodies are data),
and its synchronous result is `none` — never an error — for every input. -/
theorem start_nonblocking_success (g : Group) :
    g.Start = (g, { listenerLaunched := true
                    startTasksLaunched := g.services
                    syncResult := none }) := by
  simp [Group.Start, foldl_append_singleton]

/-- C8: a failure outcome from a service's stop operation is discarded:
the fan-out still launches one stop call per snapshotted service whatever
the outcomes are, the resulting coordinator state and the set of services
stopped are independent of the outcomes, and `Wait`'s result is unaffected
by them. -/
theorem stop_outcome_discarded (g : Group) (outcome : Nat → Option Nat) :
    (g.stopAllO outcome).2.map Prod.fst = g.startedServices ∧
    (g.stopAllO outcome).1 = g ∧
    (g.StopO outcome).1 = (g.StopO (fun _ => none)).1 ∧
    (g.StopO outcome).2.map Prod.fst
      = (g.StopO (fun _ => none)).2.map Prod.fst ∧
    Group.Wait (g.StopO outcome).1 = Group.Wait (g.StopO (fun _ => none)).1 := by
  refine ⟨?_, rfl, ?_, ?_, rfl⟩
  · have hco : (Prod.fst ∘ fun s : Nat => (s, outcome s)) = id := rfl
    simp [Group.stopAllO, List.map_map, hco]
  · by_cases h : g.stopOnceDone <;> simp [Group.StopO, Group.stopAllO, h]
  · by_cases h : g.stopOnceDone <;> simp [Group.StopO, Group.stopAllO, h]

/-- C9: `Stop()` on a freshly constructed group is safe: the fan-out
executes over the empty started set (one fan-out, zero stop calls), the
shared signal is asserted, and it stays asserted across every subsequent
event — any start task launched afterwards observes it. -/
theorem stop_before_start_safe (t : Nat) (evs : List Event) :
    ((New t).Stop).2 = [[]] ∧
    ((New t).Stop).1.ctxCancelled = true ∧
    ((New t).Stop).1.startedServices = [] ∧
    ((((New t).Stop).1).run evs).1.ctxCancelled = true :=
  ⟨rfl, rfl, rfl, Group.run_ctx_mono _ evs rfl⟩

/-- C10: the registry is mutated only by registration: `Add` appends
exactly one service at the end, while `Start`, `Stop`, every run event and
every whole run leave `services` unchanged, and `Wait` returns no state at
all. -/
theorem registry_mutated_only_by_add (g : Group) (ev : Event)
    (evs : List Event) (s : Nat) :
    (g.Add s).services = g.services ++ [s] ∧
    ((g.Start).1).services = g.services ∧
    ((g.Stop).1).services = g.services ∧
    ((g.step ev).1).services = g.services ∧
    ((g.run evs).1).services = g.services ∧
    Group.Wait g = () := by
  refine ⟨rfl, rfl, ?_, g.step_services ev, g.run_services evs, rfl⟩
  by_cases h : g.stopOnceDone <;> simp [Group.Stop, Group.stopAll, h]

/-- C1 counterexample: the claim says `Wait()` returns the failure outcome
recorded from the first service whose start failed.  The code records no
failure: two runs whose first start failures are the distinct errors `3`
and `4` leave the coordinator in identical states with identical traces, so
no reading of the coordinator — `Wait()` included, whose Go return type
carries no value at all — can yield the first failure. -/
theorem wait_first_failure_cx :
    firstStartFailure
        [Event.taskBegin 0, Event.taskBegin 1,
         Event.taskFail 0 3, Event.taskFail 1 9] = some 3 ∧
    firstStartFailure
        [Event.taskBegin 0, Event.taskBegin 1,
         Event.taskFail 0 4, Event.taskFail 1 9] = some 4 ∧
    (New 7).run [Event.taskBegin 0, Event.taskBegin 1,
                 Event.taskFail 0 3, Event.taskFail 1 9] =
      (New 7).run [Event.taskBegin 0, Event.taskBegin 1,
                   Event.taskFail 0 4, Event.taskFail 1 9] :=
  ⟨rfl, rfl, by decide⟩

/-- C1 amended: `Wait()` blocks until every launched task has completed and
returns no outcome; no start failure is recorded — a run is unchanged when
every start-task error value is replaced by `0`, so the first failure is
not observable through the coordinator. -/
theorem wait_returns_no_outcome (g : Group) (evs : List Event) :
    Group.Wait ((g.run evs).1) = () ∧ g.run (scrubErrors evs) = g.run evs := by
  refine ⟨rfl, ?_⟩
  induction evs generalizing g with
  | nil => rfl
  | cons ev rest ih =>
      cases ev with
      | taskBegin svc => simp [scrubErrors, Group.run, Group.step, ih]
      | taskFail svc e => simp [scrubErrors, Group.run, Group.step, ih]
      | callStop => simp [scrubErrors, Group.run, Group.step, ih]

/-- C4 counterexample: the claim says the start failure is recorded,
first-failure-wins.  Nothing is recorded: two runs differing only in the
value of the one start failure end in the same state with the same trace. -/
theorem start_failure_recorded_cx :
    ((New 5).Add 0).run [Event.taskBegin 0, Event.taskFail 0 1] =
      ((New 5).Add 0).run [Event.taskBegin 0, Event.taskFail 0 2] ∧
    firstStartFailure [Event.taskBegin 0, Event.taskFail 0 1] ≠
      firstStartFailure [Event.taskBegin 0, Event.taskFail 0 2] :=
  ⟨by decide, by decide⟩

/-- C4 amended: when a start task reports a failure while the stop latch is
unconsumed, `Stop()` is invoked automatically, its fan-out issues a stop
call to every already-started service (the failed one included), and the
failure value itself is discarded rather than recorded: the step is
identical for every error value. -/
theorem start_failure_triggers_stop (g : Group) (svc e : Nat)
    (hg : g.stopOnceDone = false) (_hmem : svc ∈ g.startedServices) :
    (g.step (Event.taskFail svc e)).2 = [g.startedServices] ∧
    (∀ s ∈ g.startedServices,
        1 ≤ stopCallCount (g.step (Event.taskFail svc e)).2 s) ∧
    (g.step (Event.taskFail svc e)).1.ctxCancelled = true ∧
    (g.step (Event.taskFail svc e)).1.stopOnceDone = true ∧
    g.step (Event.taskFail svc e) = g.step (Event.taskFail svc 0) := by
  refine ⟨?_, ?_, ?_, ?_, rfl⟩
  · simp [Group.step, Group.Stop, Group.stopAll, hg]
  · intro s hs
    simpa [Group.step, Group.Stop, Group.stopAll, hg, stopCallCount,
      Nat.succ_le_iff, List.count_pos_iff] using hs
  · simp [Group.step, Group.Stop, Group.stopAll, hg]
  · simp [Group.step, Group.Stop, Group.stopAll, hg]

/-- Witness for C4: service 11 fails its start while 10 and 11 have
started. -/
theorem start_failure_triggers_stop_witness :
    (Group.mk [10, 11] [10, 11] false false 5).stopOnceDone = false ∧
    11 ∈ (Group.mk [10, 11] [10, 11] false false 5).startedServices ∧
    ((Group.mk [10, 11] [10, 11] false false 5).step
        (Event.taskFail 11 7)).2 = [[10, 11]] :=
  ⟨rfl, by decide,
    (start_failure_triggers_stop (Group.mk [10, 11] [10, 11] false false 5)
        11 7 rfl (by decide)).1⟩

/-- C5 counterexample: the claim says that when every service runs to
natural completion (start returns, no cancellation), `Wait()` eventually
returns with no launched task blocked forever.  In such a run nothing
cancels the shared context, and the signal-listener task returns only when
the context is cancelled or a signal arrives — so it blocks forever and
`Wait()` never returns. -/
theorem natural_completion_wait_cx :
    (((New 5).Add 0).run [Event.taskBegin 0]).1.ctxCancelled = false ∧
    handleSignalsReturns false false true = false ∧
    waitReturns [StartBeh.completes none] false false true = false :=
  ⟨by decide, rfl, rfl⟩

/-- C5 amended: if `stop()` is never invoked — so the shared context is
never cancelled — and no OS signal arrives, the signal-listener task never
returns and `Wait()` blocks forever, whatever the services did and whether
or not a stop fan-out could have completed. -/
theorem wait_blocks_without_stop_trigger (behs : List StartBeh)
    (fanoutCompletes : Bool) :
    waitReturns behs false false fanoutCompletes = false ∧
    handleSignalsReturns false false fanoutCompletes = false := by
  constructor
  · simp [waitReturns, handleSignalsReturns]
  · simp [handleSignalsReturns]

/-- C3 counterexample: the claim says a stop task that exceeds the deadline
is abandoned and the fan-out completes once the timeout elapses.  With one
started service whose stop operation never returns, the join taken from the
code never completes, while the spec-modelled join completes exactly at the
timeout. -/
theorem stop_timeout_abandon_cx :
    (Group.mk [0] [0] true true 5).stopAllJoin (fun _ => none) = none ∧
    joinStopTasksSpec 5 [none] = 5 :=
  ⟨rfl, rfl⟩

/-- C3 amended: the stop fan-out's join blocks exactly as long as some stop
task does: it never completes if and only if some started service's stop
operation never returns.  The configured timeout bounds stopping only
cooperatively, through the deadline context handed to each stop call; it
does not bound the join, so a stop implementation that ignores the deadline
blocks `stopAll` — and with it `Stop()` and `Wait()` — indefinitely. -/
theorem stopAllJoin_blocks_iff (g : Group) (stopBeh : Nat → Option Nat) :
    g.stopAllJoin stopBeh = none ↔ ∃ s ∈ g.startedServices, stopBeh s = none := by
  unfold Group.stopAllJoin
  induction g.startedServices with
  | nil => simp [joinStopTasks]
  | cons x xs ih =>
      simp only [List.map_cons, joinStopTasks]
      cases hj : joinStopTasks (xs.map stopBeh) with
      | none =>
          obtain ⟨s, hs, hn⟩ := ih.mp hj
          simp only [Option.none_bind]
          exact ⟨fun _ => ⟨s, List.mem_cons_of_mem x hs, hn⟩, fun _ => trivial⟩
      | some b =>
          simp only [Option.some_bind]
          cases hx : stopBeh x with
          | none =>
              simp only [Option.map_none']
              exact ⟨fun _ => ⟨x, List.mem_cons_self x xs, hx⟩, fun _ => trivial⟩
          | some a =>
              simp only [Option.map_some']
              constructor
              · intro h
                exact absurd h (by simp)
              · rintro ⟨s, hs, hn⟩
                rcases List.mem_cons.mp hs with rfl | hs2
                · rw [hx] at hn
                  exact absurd hn (by simp)
                · rw [ih.mpr ⟨s, hs2, hn⟩] at hj
                  exact absurd hj (by simp)

/-- C7: after N distinct services (a subset of the registered ones) have
begun starting, one external `Stop()` issues exactly one stop call to each
of them — the fan-out runs over the started set only — and none to a
registered service that never began starting; the run is a total function,
so it completes on every such input. -/
theorem single_stop_stops_each_started_once (t : Nat) (regs order : List Nat)
    (hnd : order.Nodup) (_hsub : ∀ s ∈ order, s ∈ regs) :
    (stopScenario t regs order).2 = [order] ∧
    (∀ s ∈ order, stopCallCount (stopScenario t regs order).2 s = 1) ∧
    (∀ s ∈ regs, s ∉ order →
        stopCallCount (stopScenario t regs order).2 s = 0) := by
  have h0 := foldl_Add_fields (New t) regs
  have hstarted : (regs.foldl Group.Add (New t)).startedServices = [] := h0.1
  have hdone : (regs.foldl Group.Add (New t)).stopOnceDone = false := h0.2.1
  have htr : (stopScenario t regs order).2 = [order] := by
    unfold stopScenario
    rw [Group.run_append, Group.run_taskBegins]
    simp [Group.run, Group.step, Group.Stop, Group.stopAll, hstarted, hdone]
  refine ⟨htr, ?_, ?_⟩
  · intro s hs
    rw [htr]
    simp [stopCallCount]
    exact List.count_eq_one_of_mem hnd hs
  · intro s _ hns
    rw [htr]
    simp [stopCallCount]
    exact List.count_eq_zero_of_not_mem hns

/-- Witness for C7: services 0, 1, 2 of four registered ones start (in the
schedule order 2, 0, 1); each is stopped exactly once and the
never-started service 3 is not stopped. -/
theorem single_stop_stops_each_started_once_witness :
    ([2, 0, 1] : List Nat).Nodup ∧
    (∀ s ∈ ([2, 0, 1] : List Nat), s ∈ ([0, 1, 2, 3] : List Nat)) ∧
    (stopScenario 5 [0, 1, 2, 3] [2, 0, 1]).2 = [[2, 0, 1]] ∧
    stopCallCount (stopScenario 5 [0, 1, 2, 3] [2, 0, 1]).2 0 = 1 ∧
    stopCallCount (stopScenario 5 [0, 1, 2, 3] [2, 0, 1]).2 3 = 0 :=
  ⟨by decide, by decide,
    (single_stop_stops_each_started_once 5 [0, 1, 2, 3] [2, 0, 1]
        (by decide) (by decide)).1,
    (single_stop_stops_each_started_once 5 [0, 1, 2, 3] [2, 0, 1]
        (by decide) (by decide)).2.1 0 (by decide),
    (single_stop_stops_each_started_once 5 [0, 1, 2, 3] [2, 0, 1]
        (by decide) (by decide)).2.2 3 (by decide) (by decide)⟩

end Lullaby
